import Mathlib

/-!
# go.uik: the actor-tree core (`uik.go`)

A shallow embedding of `uik.go` and the properties of its geometry, event
dispatch, event splitting, draw composition and window construction.

Conventions of the embedding.

* Coordinates are `float64` in the source.  The number type is a parameter `α`
  carrying its own `+` and `-`, so every statement holds for whatever arithmetic
  the coordinates have; concrete evaluations use `Int`.
* A Go channel is a natural number (its identity); a nil channel is `none`.
* `Children []*Block` is embedded as the list of the pointed-to blocks.  None of the
  embedded functions writes to a child, and a block is told apart from another by
  the identities of its channels.
* A goroutine body is embedded as the function that serves one received value,
  passing the state of the channels (and of the graphics context) explicitly.
-/

set_option linter.dupNamespace false

namespace Uik

/-! ## Data model -/

/-- Coord: a point `(X, Y)`. -/
structure Coord (α : Type) where
  X : α
  Y : α
deriving DecidableEq, Repr

/-- Bounds: an axis-aligned rectangle given by its minimum and maximum corner. -/
structure Bounds (α : Type) where
  Min : Coord α
  Max : Coord α
deriving DecidableEq, Repr

/-- Modelled from the spec: `Bounds.Contains`, the point-containment test of the
geometry file, which is not part of `uik.go`.  The spec leaves the edge convention
open; both edges are inclusive here.  The embedded functions take the containment
test as a parameter, and this one is used for concrete evaluations only. -/
def Bounds.Contains {α : Type} [LE α] [∀ a b : α, Decidable (a ≤ b)]
    (b : Bounds α) (p : Coord α) : Bool :=
  decide (b.Min.X ≤ p.X) && decide (p.X ≤ b.Max.X) &&
    decide (b.Min.Y ≤ p.Y) && decide (p.Y ≤ b.Max.Y)

/-- DrawRequest (`uik.go` lines 18-22).  The `GC` field is a reference to the one
graphics context of a traversal, which the embedding threads through the state;
`Done` is the completion channel. -/
structure DrawRequest (α : Type) where
  Dirty : Bounds α
  Done : Nat
deriving DecidableEq, Repr

/-- Block (`uik.go` lines 25-44).  `Parent` is the address of the owning Foundation
(nil is `none`), the channel fields are channel identities, and `Paint` is the
identity of the paint hook (nil is `none`); what a hook does to a graphics context
is given by a separate interpretation. -/
structure Block (α : Type) where
  Parent : Option Nat
  CloseEvents : Option Nat
  MouseDownEvents : Option Nat
  MouseUpEvents : Option Nat
  allEventsIn : Option Nat
  allEventsOut : Option Nat
  Draw : Option Nat
  Redraw : Option Nat
  Paint : Option Nat
  Min : Coord α
  Size : Coord α
deriving DecidableEq, Repr

/-- Foundation (`uik.go` lines 92-98): a Block with a sequence of children. -/
structure Foundation (α : Type) extends Block α where
  Children : List (Block α)
  KeyboardBlock : Option (Block α)
deriving DecidableEq, Repr

/-! ## Geometry -/

/-- `Block.BoundsInParent` (`uik.go` lines 72-78).  The method has a pointer
receiver; the second component is the receiver as the call leaves it. -/
def Block.BoundsInParent {α : Type} [Add α] (b : Block α) : Bounds α × Block α :=
  let bounds : Bounds α := { Min := b.Min, Max := b.Min }
  let bounds : Bounds α := { bounds with Max := { bounds.Max with X := bounds.Max.X + b.Size.X } }
  let bounds : Bounds α := { bounds with Max := { bounds.Max with Y := bounds.Max.Y + b.Size.Y } }
  (bounds, b)

/-- The loop of `Foundation.BlockForCoord` (`uik.go` lines 139-144) over the
children that are still to be visited. -/
def BlockForCoord.loop {α : Type} [Add α] (contains : Bounds α → Coord α → Bool)
    (p : Coord α) : List (Block α) → Option (Block α)
  | [] => none
  | bl :: rest =>
    if contains bl.BoundsInParent.1 p then some bl else BlockForCoord.loop contains p rest

/-- `Foundation.BlockForCoord` (`uik.go` lines 137-146); a nil result is `none`. -/
def Foundation.BlockForCoord {α : Type} [Add α] (contains : Bounds α → Coord α → Bool)
    (f : Foundation α) (p : Coord α) : Option (Block α) :=
  BlockForCoord.loop contains p f.Children

/-- The redraw branch of `Foundation.handleDrawing` (`uik.go` lines 129-132), serving
one dirty region received on `f.Redraw`.  The result is the address of `f.Parent` and
the bounds sent on that Foundation's `Redraw` channel; with a nil `Parent` the
dereference fails and nothing is sent (`none`). -/
def Foundation.handleDrawing.onRedraw {α : Type} [Sub α] (f : Foundation α)
    (dirtyBounds : Bounds α) : Option (Nat × Bounds α) :=
  let dirtyBounds : Bounds α :=
    { dirtyBounds with Min := { dirtyBounds.Min with X := dirtyBounds.Min.X - f.Min.X } }
  let dirtyBounds : Bounds α :=
    { dirtyBounds with Min := { dirtyBounds.Min with Y := dirtyBounds.Min.Y - f.Min.Y } }
  match f.Parent with
  | none => none
  | some parent => some (parent, dirtyBounds)

/-! ## Events -/

/-- The payload of `wde.MouseDownEvent`, a type of the window backend: the integer
pixel position read by `handleWindowEvents` and the button. -/
structure Wde.MouseDownEvent where
  X : Int
  Y : Int
  Which : Nat
deriving DecidableEq, Repr

/-- The payload of `wde.MouseUpEvent`, a type of the window backend. -/
structure Wde.MouseUpEvent where
  X : Int
  Y : Int
  Which : Nat
deriving DecidableEq, Repr

/-- The value `wde.CloseEvent` of the window backend; `id` tells one value from
another. -/
structure Wde.CloseEvent where
  id : Nat
deriving DecidableEq, Repr

/-- MouseLocator: the floating-point location embedded in the mouse events
(`uik.go` lines 219-221). -/
structure MouseLocator (α : Type) where
  Loc : Coord α
deriving DecidableEq, Repr

/-- MouseDownEvent: the backend event and a MouseLocator, both embedded
(`uik.go` lines 217-222). -/
structure MouseDownEvent (α : Type) where
  MouseDownEvent : Wde.MouseDownEvent
  MouseLocator : MouseLocator α
deriving DecidableEq, Repr

/-- MouseUpEvent: the backend event and a MouseLocator, both embedded
(`uik.go` lines 224-229). -/
structure MouseUpEvent (α : Type) where
  MouseUpEvent : Wde.MouseUpEvent
  MouseLocator : MouseLocator α
deriving DecidableEq, Repr

/-- The promoted field `e.Loc` of a MouseDownEvent. -/
def MouseDownEvent.Loc {α : Type} (e : Uik.MouseDownEvent α) : Coord α :=
  e.MouseLocator.Loc

/-- The promoted field `e.Loc` of a MouseUpEvent. -/
def MouseUpEvent.Loc {α : Type} (e : Uik.MouseUpEvent α) : Coord α :=
  e.MouseLocator.Loc

/-- A value of type `interface{}` travelling through a Block's event queue, by its
dynamic type: the three kinds `handleSplitEvents` knows, or anything else. -/
inductive Event (α : Type) where
  | mouseDown (e : MouseDownEvent α)
  | mouseUp (e : MouseUpEvent α)
  | close (e : Wde.CloseEvent)
  | other (tag : Nat)
deriving DecidableEq, Repr

/-- The state of the event queues: every value put into the input endpoint of a
queue so far, with the endpoint it was put into, oldest first. -/
structure World (α : Type) where
  puts : List (Nat × Event α)
deriving DecidableEq, Repr

/-- Modelled from the spec: `QueuePipe`, the unbounded order-preserving queue of the
queue file, which is not part of `uik.go`.  The values its output endpoint delivers
are the values put into the input endpoint `q`, in the same order. -/
def World.inbound {α : Type} (w : World α) (q : Nat) : List (Event α) :=
  (w.puts.filter (fun s => decide (s.1 = q))).map (fun s => s.2)

/-- The statement `ch <- e` on the input endpoint of a queue.  A put into a queue
never blocks; a send on a nil channel blocks forever (`none`). -/
def World.send {α : Type} (w : World α) (ch : Option Nat) (e : Event α) : Option (World α) :=
  match ch with
  | none => none
  | some q => some { puts := w.puts ++ [(q, e)] }

/-- What one iteration of the `select` of `Foundation.handleEvents` received, and on
which of the three channels. -/
inductive Received (α : Type) where
  | CloseEvents (e : Wde.CloseEvent)
  | MouseDownEvents (e : MouseDownEvent α)
  | MouseUpEvents (e : MouseUpEvent α)
deriving DecidableEq, Repr

/-- The loop of the close branch of `Foundation.handleEvents` (`uik.go` lines 153-155)
over the children that are still to be served. -/
def handleEvents.closeLoop {α : Type} (e : Wde.CloseEvent) :
    List (Block α) → World α → Option (World α)
  | [], w => some w
  | b :: rest, w =>
    match w.send b.allEventsIn (Event.close e) with
    | none => none
    | some w1 => handleEvents.closeLoop e rest w1

/-- One iteration of `Foundation.handleEvents` (`uik.go` lines 149-174), serving the
received value.  The result is the state of the queues when the iteration ends, or
`none` when the goroutine blocks forever inside it. -/
def Foundation.handleEvents {α : Type} [Add α] [Sub α]
    (contains : Bounds α → Coord α → Bool) (f : Foundation α) (r : Received α)
    (w : World α) : Option (World α) :=
  match r with
  | Received.CloseEvents e => handleEvents.closeLoop e f.Children w
  | Received.MouseDownEvents e =>
    match f.BlockForCoord contains e.Loc with
    | none => some w
    | some b =>
      let e : MouseDownEvent α :=
        { e with MouseLocator := { Loc := { e.Loc with X := e.Loc.X - b.Min.X } } }
      let e : MouseDownEvent α :=
        { e with MouseLocator := { Loc := { e.Loc with Y := e.Loc.Y - b.Min.Y } } }
      w.send b.allEventsIn (Event.mouseDown e)
  | Received.MouseUpEvents e =>
    match f.BlockForCoord contains e.Loc with
    | none => some w
    | some b =>
      let e : MouseUpEvent α :=
        { e with MouseLocator := { Loc := { e.Loc with X := e.Loc.X - b.Min.X } } }
      let e : MouseUpEvent α :=
        { e with MouseLocator := { Loc := { e.Loc with Y := e.Loc.Y - b.Min.Y } } }
      w.send b.allEventsIn (Event.mouseUp e)

/-- The values `Block.handleSplitEvents` has sent on each of the three typed
channels, oldest first. -/
structure SplitOut (α : Type) where
  MouseDownEvents : List (MouseDownEvent α)
  MouseUpEvents : List (MouseUpEvent α)
  CloseEvents : List Wde.CloseEvent
deriving DecidableEq, Repr

/-- `Block.handleSplitEvents` (`uik.go` lines 59-70) over the values its
`allEventsOut` delivers, in order; `out` holds what has been sent so far.  Each send
is taken by a receiver. -/
def Block.handleSplitEvents {α : Type} : List (Event α) → SplitOut α → SplitOut α
  | [], out => out
  | Event.mouseDown e :: rest, out =>
    Block.handleSplitEvents rest { out with MouseDownEvents := out.MouseDownEvents ++ [e] }
  | Event.mouseUp e :: rest, out =>
    Block.handleSplitEvents rest { out with MouseUpEvents := out.MouseUpEvents ++ [e] }
  | Event.close e :: rest, out =>
    Block.handleSplitEvents rest { out with CloseEvents := out.CloseEvents ++ [e] }
  | Event.other _ :: rest, out => Block.handleSplitEvents rest out

/-! ## Drawing -/

/-- The part of a draw2d graphics context (a type of the graphics library) that
`Save`, `Restore` and `Translate` act on: the current transform and the stack of
saved transforms, newest first.  The type `T` of transforms is a parameter. -/
structure GraphicContext (T : Type) where
  Tr : T
  saved : List T
deriving DecidableEq, Repr

/-- `gc.Save()`: pushes the current transform. -/
def GraphicContext.Save {T : Type} (gc : GraphicContext T) : GraphicContext T :=
  { gc with saved := gc.Tr :: gc.saved }

/-- `gc.Restore()`: pops the newest saved transform and makes it current; with
nothing saved the context stays as it is. -/
def GraphicContext.Restore {T : Type} (gc : GraphicContext T) : GraphicContext T :=
  match gc.saved with
  | [] => gc
  | t :: rest => { Tr := t, saved := rest }

/-- `gc.Translate(x, y)`: composes the current transform with a translation, as
given by `translate`. -/
def GraphicContext.Translate {α T : Type} (translate : T → α → α → T)
    (gc : GraphicContext T) (x y : α) : GraphicContext T :=
  { gc with Tr := translate gc.Tr x y }

/-- `gc.Clear()`: touches neither the transform nor the saved stack. -/
def GraphicContext.Clear {T : Type} (gc : GraphicContext T) : GraphicContext T := gc

/-- `gc.BeginPath()`: touches neither the transform nor the saved stack. -/
def GraphicContext.BeginPath {T : Type} (gc : GraphicContext T) : GraphicContext T := gc

/-- `draw2d.NewGraphicContext`: a fresh context, with the transform `identity` and
nothing saved. -/
def NewGraphicContext {T : Type} (identity : T) : GraphicContext T :=
  { Tr := identity, saved := [] }

/-- What a draw traversal does, as an observer sees it: the calls on the graphics
context, the calls of paint hooks, the channel operations and the flush. -/
inductive DrawEvent (α : Type) where
  | Clear
  | BeginPath
  | Save
  | Translate (x y : α)
  | Restore
  | Paint (hook : Nat)
  | sendDraw (ch : Nat) (done : Nat)
  | sendDone (done : Nat)
  | recvDone (done : Nat)
  | FlushImage
deriving DecidableEq, Repr

/-- The state of a draw traversal: the shared graphics context, what has happened
so far (oldest first), the completion channels on which a sender is offering `true`
to a receiver that has not taken it yet, and the next unused channel identity. -/
structure DrawState (α T : Type) where
  gc : GraphicContext T
  trace : List (DrawEvent α)
  offered : List Nat
  nextChan : Nat
deriving DecidableEq, Repr

/-- How the service of one request ends: the loop body ran to its end, or the
goroutine is blocked forever on a channel operation. -/
inductive Outcome (σ : Type) where
  | returned (st : σ)
  | blocked (st : σ)
deriving DecidableEq, Repr

/-- A call on the graphics context (or of a paint hook): `fx` is what it does to the
context, `ev` what the observer sees. -/
def DrawState.call {α T : Type} (st : DrawState α T) (ev : DrawEvent α)
    (fx : GraphicContext T → GraphicContext T) : DrawState α T :=
  { st with gc := fx st.gc, trace := st.trace ++ [ev] }

/-- `make(chan bool)`: a channel nobody else knows. -/
def DrawState.makeChan {α T : Type} (st : DrawState α T) : Nat × DrawState α T :=
  (st.nextChan, { st with nextChan := st.nextChan + 1 })

/-- `done <- true`: the sender offers the value on `done`. -/
def DrawState.sendDone {α T : Type} (st : DrawState α T) (done : Nat) : DrawState α T :=
  { st with offered := done :: st.offered, trace := st.trace ++ [DrawEvent.sendDone done] }

/-- `<-done`: takes the value a sender offers on `done`; with no sender on that
channel the receiver blocks forever (`none`). -/
def DrawState.recvDone {α T : Type} (st : DrawState α T) (done : Nat) :
    Option (DrawState α T) :=
  if done ∈ st.offered then
    some { st with offered := st.offered.erase done,
                   trace := st.trace ++ [DrawEvent.recvDone done] }
  else none

/-- `Block.doPaint` (`uik.go` lines 46-50); `run h` is what the hook `h` does to the
graphics context. -/
def Block.doPaint {α T : Type} (run : Nat → GraphicContext T → GraphicContext T)
    (b : Block α) (st : DrawState α T) : DrawState α T :=
  match b.Paint with
  | none => st
  | some h => st.call (DrawEvent.Paint h) (run h)

/-- One iteration of `Block.draw` (`uik.go` lines 52-57), serving the request `dr`
received on `b.Draw`. -/
def Block.draw {α T : Type} (run : Nat → GraphicContext T → GraphicContext T)
    (b : Block α) (dr : DrawRequest α) (st : DrawState α T) : DrawState α T :=
  let st := b.doPaint run st
  st.sendDone dr.Done

/-- The loop over the children in the draw branch of `Foundation.handleDrawing`
(`uik.go` lines 114-127); every child runs `Block.draw`. -/
def handleDrawing.childLoop {α T : Type} [Zero α] (translate : T → α → α → T)
    (run : Nat → GraphicContext T → GraphicContext T) (dr : DrawRequest α) :
    List (Block α) → DrawState α T → Outcome (DrawState α T)
  | [], st => Outcome.returned st
  | child :: rest, st =>
    let st := st.call DrawEvent.Save GraphicContext.Save
    let st := st.call (DrawEvent.Translate child.Min.X child.Min.Y)
      (fun gc => gc.Translate translate child.Min.X child.Min.Y)
    let (done, st) := st.makeChan
    let cdr : DrawRequest α := { Dirty := ⟨⟨0, 0⟩, ⟨0, 0⟩⟩, Done := done }
    match child.Draw with
    | none => Outcome.blocked st
    | some ch =>
      let st := { st with trace := st.trace ++ [DrawEvent.sendDraw ch dr.Done] }
      let st := child.draw run dr st
      match st.recvDone cdr.Done with
      | none => Outcome.blocked st
      | some st =>
        let st := st.call DrawEvent.Restore GraphicContext.Restore
        handleDrawing.childLoop translate run dr rest st

/-- The draw branch of `Foundation.handleDrawing` (`uik.go` lines 110-128), serving
the request `dr` received on `f.Draw`. -/
def Foundation.handleDrawing.onDraw {α T : Type} [Zero α] (translate : T → α → α → T)
    (run : Nat → GraphicContext T → GraphicContext T) (f : Foundation α)
    (dr : DrawRequest α) (st : DrawState α T) : Outcome (DrawState α T) :=
  let st :=
    match f.Paint with
    | none => st
    | some h => st.call (DrawEvent.Paint h) (run h)
  match handleDrawing.childLoop translate run dr f.Children st with
  | Outcome.blocked st => Outcome.blocked st
  | Outcome.returned st => Outcome.returned (st.sendDone dr.Done)

/-! ## Windows -/

/-- WindowFoundation (`uik.go` lines 177-181); `W` is the handle of the native
window (nil is `none`). -/
structure WindowFoundation (α : Type) extends Foundation α where
  W : Option Nat
  Done : Option Nat
deriving DecidableEq, Repr

/-- The loop over the children in `WindowFoundation.handleWindowDrawing`
(`uik.go` lines 246-259); every child runs `Block.draw`. -/
def handleWindowDrawing.childLoop {α T : Type} [Zero α] (translate : T → α → α → T)
    (run : Nat → GraphicContext T → GraphicContext T) :
    List (Block α) → DrawState α T → Outcome (DrawState α T)
  | [], st => Outcome.returned st
  | child :: rest, st =>
    let st := st.call DrawEvent.Save GraphicContext.Save
    let st := st.call (DrawEvent.Translate child.Min.X child.Min.Y)
      (fun gc => gc.Translate translate child.Min.X child.Min.Y)
    let (done, st) := st.makeChan
    let cdr : DrawRequest α := { Dirty := ⟨⟨0, 0⟩, ⟨0, 0⟩⟩, Done := done }
    match child.Draw with
    | none => Outcome.blocked st
    | some ch =>
      let st := { st with trace := st.trace ++ [DrawEvent.sendDraw ch cdr.Done] }
      let st := child.draw run cdr st
      match st.recvDone cdr.Done with
      | none => Outcome.blocked st
      | some st =>
        let st := st.call DrawEvent.Restore GraphicContext.Restore
        handleWindowDrawing.childLoop translate run rest st

/-- One iteration of `WindowFoundation.handleWindowDrawing` (`uik.go` lines 239-261),
serving one dirty region received on `wf.Redraw`.  The graphics context of the
state is replaced by a fresh one over the screen of the window. -/
def WindowFoundation.handleWindowDrawing {α T : Type} [Zero α] (translate : T → α → α → T)
    (run : Nat → GraphicContext T → GraphicContext T) (identity : T)
    (wf : WindowFoundation α) (dirtyBounds : Bounds α) (st : DrawState α T) :
    Outcome (DrawState α T) :=
  let st : DrawState α T := { st with gc := NewGraphicContext identity }
  let st := st.call DrawEvent.Clear GraphicContext.Clear
  let st := st.call DrawEvent.BeginPath GraphicContext.BeginPath
  let _ := dirtyBounds
  let st := wf.toBlock.doPaint run st
  match handleWindowDrawing.childLoop translate run wf.Children st with
  | Outcome.blocked st => Outcome.blocked st
  | Outcome.returned st =>
    Outcome.returned { st with trace := st.trace ++ [DrawEvent.FlushImage] }

/-- The goroutines `MakeChannels` and `NewWindow` start. -/
inductive Goroutine where
  | handleSplitEvents
  | handleWindowEvents
  | handleWindowDrawing
  | handleEvents
deriving DecidableEq, Repr

/-- The part of the Go runtime window construction acts on: the next unused channel
identity and the goroutines started so far, oldest first. -/
structure Runtime where
  nextChan : Nat
  started : List Goroutine
deriving DecidableEq, Repr

/-- `make(chan ...)`: a new channel. -/
def Runtime.make (rt : Runtime) : Nat × Runtime :=
  (rt.nextChan, { rt with nextChan := rt.nextChan + 1 })

/-- The statement `go g()`. -/
def Runtime.go (rt : Runtime) (g : Goroutine) : Runtime :=
  { rt with started := rt.started ++ [g] }

/-- Modelled from the spec: `QueuePipe`, the constructor of the unbounded event queue,
which is not part of `uik.go`.  It returns a new input endpoint and a new output
endpoint. -/
def QueuePipe (rt : Runtime) : (Nat × Nat) × Runtime :=
  let (i, rt) := rt.make
  let (o, rt) := rt.make
  ((i, o), rt)

/-- `Block.MakeChannels` (`uik.go` lines 80-88). -/
def Block.MakeChannels {α : Type} (b : Block α) (rt : Runtime) : Block α × Runtime :=
  let (c, rt) := rt.make
  let b := { b with CloseEvents := some c }
  let (c, rt) := rt.make
  let b := { b with MouseDownEvents := some c }
  let (c, rt) := rt.make
  let b := { b with MouseUpEvents := some c }
  let (c, rt) := rt.make
  let b := { b with Draw := some c }
  let (c, rt) := rt.make
  let b := { b with Redraw := some c }
  let (io, rt) := QueuePipe rt
  let b := { b with allEventsIn := some io.1, allEventsOut := some io.2 }
  let rt := rt.go Goroutine.handleSplitEvents
  (b, rt)

/-- `new(WindowFoundation)`: the zero value. -/
def WindowFoundation.new {α : Type} [Zero α] : WindowFoundation α :=
  { Parent := none, CloseEvents := none, MouseDownEvents := none, MouseUpEvents := none,
    allEventsIn := none, allEventsOut := none, Draw := none, Redraw := none, Paint := none,
    Min := ⟨0, 0⟩, Size := ⟨0, 0⟩, Children := [], KeyboardBlock := none,
    W := none, Done := none }

/-- `NewWindow` (`uik.go` lines 183-199).  The package variable `WindowGenerator` is a
parameter; it returns a window handle and an error (nil is `none`).  The conversion
`float64(_)` is the cast of `α`. -/
def NewWindow {α : Type} [Zero α] [IntCast α]
    (WindowGenerator : Option Nat → Int → Int → Option Nat × Option String)
    (parent : Option Nat) (width height : Int) (rt : Runtime) :
    (WindowFoundation α × Option String) × Runtime :=
  let wf : WindowFoundation α := WindowFoundation.new
  let (window, err) := WindowGenerator parent width height
  let wf : WindowFoundation α := { wf with W := window }
  match err with
  | some e => ((wf, some e), rt)
  | none =>
    let (b, rt) := wf.toBlock.MakeChannels rt
    let wf : WindowFoundation α := { wf with toFoundation := { wf.toFoundation with toBlock := b } }
    let wf : WindowFoundation α := { wf with Size := ⟨(width : α), (height : α)⟩ }
    let rt := rt.go Goroutine.handleWindowEvents
    let rt := rt.go Goroutine.handleWindowDrawing
    let rt := rt.go Goroutine.handleEvents
    ((wf, none), rt)

/-! ## The subsequences of the spec -/

/-- The value, when it is a MouseDownEvent. -/
def Event.asMouseDown {α : Type} : Event α → Option (MouseDownEvent α)
  | Event.mouseDown e => some e
  | _ => none

/-- The value, when it is a MouseUpEvent. -/
def Event.asMouseUp {α : Type} : Event α → Option (MouseUpEvent α)
  | Event.mouseUp e => some e
  | _ => none

/-- The value, when it is a `wde.CloseEvent`. -/
def Event.asClose {α : Type} : Event α → Option Wde.CloseEvent
  | Event.close e => some e
  | _ => none

/-- Whether the value is of one of the three kinds `handleSplitEvents` knows. -/
def Event.isKnown {α : Type} : Event α → Bool
  | Event.other _ => false
  | _ => true

/-- The observable call of a block's paint hook: one event, or none when the hook is
nil. -/
def Block.paintEvents {α : Type} (b : Block α) : List (DrawEvent α) :=
  match b.Paint with
  | none => []
  | some h => [DrawEvent.Paint h]

/-- The events of drawing one child as the spec has them: save, translate by the
child's `Min`, the request on the child's draw channel `ch` with the fresh completion
channel `done`, the child's paint, its completion signal and the receipt of it, and
restore. -/
def Spec.childEvents {α : Type} (child : Block α) (ch done : Nat) : List (DrawEvent α) :=
  [DrawEvent.Save, DrawEvent.Translate child.Min.X child.Min.Y, DrawEvent.sendDraw ch done] ++
    child.paintEvents ++
    [DrawEvent.sendDone done, DrawEvent.recvDone done, DrawEvent.Restore]

/-- The events of drawing the children one after the other, in sequence order; `chs`
are their draw channels and `done` is the completion channel of the first. -/
def Spec.childrenEvents {α : Type} :
    List (Block α) → List Nat → Nat → List (DrawEvent α)
  | child :: rest, ch :: chs, done =>
    Spec.childEvents child ch done ++ Spec.childrenEvents rest chs (done + 1)
  | _, _, _ => []

/-- The graphics context after a block's paint hook ran on `gc`. -/
def Block.painted {α T : Type} (run : Nat → GraphicContext T → GraphicContext T)
    (b : Block α) (gc : GraphicContext T) : GraphicContext T :=
  match b.Paint with
  | none => gc
  | some h => run h gc

/-- Whether the event is a `Save` call. -/
def DrawEvent.isSave {α : Type} : DrawEvent α → Bool
  | DrawEvent.Save => true
  | _ => false

/-- Whether the event is a `Restore` call. -/
def DrawEvent.isRestore {α : Type} : DrawEvent α → Bool
  | DrawEvent.Restore => true
  | _ => false

/-! ## Concrete blocks for evaluation -/

/-- A live block over `Int` with the given placement and paint hook, whose channels
are numbered from `ch`. -/
def Sample.block (min size : Coord Int) (ch : Nat) (paint : Option Nat) : Block Int :=
  { Parent := some 1, CloseEvents := some ch, MouseDownEvents := some (ch + 1),
    MouseUpEvents := some (ch + 2), allEventsIn := some (ch + 3),
    allEventsOut := some (ch + 4), Draw := some (ch + 5), Redraw := some (ch + 6),
    Paint := paint, Min := min, Size := size }

/-- The child of the examples of the spec: `Min = (10,10)`, `Size = (20,30)`. -/
def Sample.child : Block Int :=
  Sample.block ⟨10, 10⟩ ⟨20, 30⟩ 10 (some 7)

/-- A second child, placed away from the first. -/
def Sample.child2 : Block Int :=
  Sample.block ⟨50, 50⟩ ⟨20, 30⟩ 20 none

/-- A live Foundation over `Int` at `min` with the given children, owned by the
Foundation at address 0. -/
def Sample.foundation (min : Coord Int) (children : List (Block Int)) : Foundation Int :=
  { Sample.block min ⟨100, 100⟩ 0 (some 3) with
    Parent := some 0, Children := children, KeyboardBlock := none }

/-- A transform that is a translation offset, and its composition with a
translation. -/
def Sample.translate (t : Coord Int) (x y : Int) : Coord Int :=
  ⟨t.X + x, t.Y + y⟩

/-- Paint hooks that leave the graphics context as they found it. -/
def Sample.quietHooks (_ : Nat) (gc : GraphicContext (Coord Int)) : GraphicContext (Coord Int) :=
  gc

/-- Paint hooks that call `gc.Translate(1, 0)` and return. -/
def Sample.shiftingHooks (_ : Nat) (gc : GraphicContext (Coord Int)) :
    GraphicContext (Coord Int) :=
  gc.Translate Sample.translate 1 0

/-- A live WindowFoundation over `Int` with the given children. -/
def Sample.window (children : List (Block Int)) : WindowFoundation Int :=
  { Sample.foundation ⟨0, 0⟩ children with Parent := none, W := some 1, Done := some 9 }

/-- The state in which a draw traversal starts: nothing has happened, no sender is
waiting, and the channels below 40 are in use. -/
def Sample.start : DrawState Int (Coord Int) :=
  { gc := NewGraphicContext ⟨0, 0⟩, trace := [], offered := [], nextChan := 40 }

/-- A window backend that fails. -/
def Sample.failing (_ : Option Nat) (_ _ : Int) : Option Nat × Option String :=
  (none, some "no display")

/-- A window backend that succeeds. -/
def Sample.working (_ : Option Nat) (_ _ : Int) : Option Nat × Option String :=
  (some 1, none)

/-! ## Theorems: geometry -/

/-- C5: for every Block, `BoundsInParent` returns the bounds with `Min = b.Min` and
`Max = (b.Min.X + b.Size.X, b.Min.Y + b.Size.Y)`, and leaves the receiver (so its
`Min` and `Size`) as it was. -/
theorem BoundsInParent_spec {α : Type} [Add α] (b : Block α) :
    b.BoundsInParent.1 =
        { Min := b.Min, Max := { X := b.Min.X + b.Size.X, Y := b.Min.Y + b.Size.Y } } ∧
      b.BoundsInParent.2 = b ∧
      b.BoundsInParent.2.Min = b.Min ∧ b.BoundsInParent.2.Size = b.Size :=
  ⟨rfl, rfl, rfl, rfl⟩

/-- C5 at the block of the spec: `Min (10,10)`, `Size (20,30)` gives `Min (10,10)`,
`Max (30,40)`. -/
theorem BoundsInParent_spec_witness :
    Sample.child.BoundsInParent.1 = { Min := ⟨10, 10⟩, Max := ⟨30, 40⟩ } :=
  (BoundsInParent_spec Sample.child).1.trans (by decide)

/-- The loop of `BlockForCoord` returns `b` exactly when `b` is the block at the
smallest position whose bounds contain `p`. -/
theorem BlockForCoord.loop_eq_some_iff {α : Type} [Add α]
    (contains : Bounds α → Coord α → Bool) (p : Coord α) (l : List (Block α)) (b : Block α) :
    BlockForCoord.loop contains p l = some b ↔
      ∃ i : Nat, l[i]? = some b ∧ contains b.BoundsInParent.1 p = true ∧
        ∀ j : Nat, j < i → ∀ c : Block α, l[j]? = some c →
          contains c.BoundsInParent.1 p = false := by
  induction l with
  | nil => simp [BlockForCoord.loop]
  | cons bl rest ih =>
    unfold BlockForCoord.loop
    by_cases hc : contains bl.BoundsInParent.1 p = true
    · rw [if_pos hc]
      constructor
      · intro h
        have hb : bl = b := Option.some.inj h
        subst hb
        exact ⟨0, by simp, hc, fun j hj => absurd hj (Nat.not_lt_zero j)⟩
      · rintro ⟨i, hi, _, hmin⟩
        cases i with
        | zero => simpa using hi
        | succ k =>
          have := hmin 0 (Nat.succ_pos k) bl (by simp)
          rw [hc] at this
          exact absurd this (by decide)
    · rw [if_neg hc, ih]
      have hf : contains bl.BoundsInParent.1 p = false := by simpa using hc
      constructor
      · rintro ⟨i, hi, hcb, hmin⟩
        refine ⟨i + 1, by simpa using hi, hcb, ?_⟩
        intro j hj c hjc
        cases j with
        | zero =>
          have : bl = c := by simpa using hjc
          subst this
          exact hf
        | succ k => exact hmin k (Nat.lt_of_succ_lt_succ hj) c (by simpa using hjc)
      · rintro ⟨i, hi, hcb, hmin⟩
        cases i with
        | zero =>
          have : bl = b := by simpa using hi
          subst this
          rw [hf] at hcb
          exact absurd hcb (by decide)
        | succ k =>
          refine ⟨k, by simpa using hi, hcb, ?_⟩
          intro j hj c hjc
          exact hmin (j + 1) (Nat.succ_lt_succ hj) c (by simpa using hjc)

/-- The loop of `BlockForCoord` returns nil exactly when no block's bounds contain
`p`. -/
theorem BlockForCoord.loop_eq_none_iff {α : Type} [Add α]
    (contains : Bounds α → Coord α → Bool) (p : Coord α) (l : List (Block α)) :
    BlockForCoord.loop contains p l = none ↔
      ∀ c ∈ l, contains c.BoundsInParent.1 p = false := by
  induction l with
  | nil => simp [BlockForCoord.loop]
  | cons bl rest ih =>
    unfold BlockForCoord.loop
    by_cases hc : contains bl.BoundsInParent.1 p = true
    · rw [if_pos hc]
      simp [hc]
    · rw [if_neg hc, ih]
      have hf : contains bl.BoundsInParent.1 p = false := by simpa using hc
      simp [hf]

/-- C4: for every Foundation and every point `p`, `BlockForCoord` returns the child
at the smallest index of `Children` whose `BoundsInParent` contains `p`, and returns
nil exactly when no child's `BoundsInParent` contains `p`. -/
theorem BlockForCoord_first_match {α : Type} [Add α]
    (contains : Bounds α → Coord α → Bool) (f : Foundation α) (p : Coord α) :
    (∀ b, f.BlockForCoord contains p = some b ↔
        ∃ i : Nat, f.Children[i]? = some b ∧ contains b.BoundsInParent.1 p = true ∧
          ∀ j : Nat, j < i → ∀ c : Block α, f.Children[j]? = some c →
            contains c.BoundsInParent.1 p = false) ∧
      (f.BlockForCoord contains p = none ↔
        ∀ c ∈ f.Children, contains c.BoundsInParent.1 p = false) :=
  ⟨fun b => BlockForCoord.loop_eq_some_iff contains p f.Children b,
   BlockForCoord.loop_eq_none_iff contains p f.Children⟩

/-- C1, as the code has it: the redraw branch subtracts `f.Min` from the `Min` corner
of the dirty region only, and forwards the `Max` corner as it received it. -/
theorem handleDrawing_onRedraw_moves_Min_only {α : Type} [Sub α] (f : Foundation α)
    (d : Bounds α) (parent : Nat) (hp : f.Parent = some parent) :
    Foundation.handleDrawing.onRedraw f d =
      some (parent, { Min := { X := d.Min.X - f.Min.X, Y := d.Min.Y - f.Min.Y },
                      Max := d.Max }) := by
  simp [Foundation.handleDrawing.onRedraw, hp]

/-- C1 at the example of the spec: the dirty region `(5,5)-(15,15)` of a Foundation
with `Min = (10,10)` reaches the parent as `(-5,-5)-(15,15)`, where the spec has
`(-5,-5)-(5,5)`. -/
theorem handleDrawing_onRedraw_moves_Min_only_witness :
    (Sample.foundation ⟨10, 10⟩ []).Parent = some 0 ∧
      Foundation.handleDrawing.onRedraw (Sample.foundation ⟨10, 10⟩ [])
          { Min := ⟨5, 5⟩, Max := ⟨15, 15⟩ } =
        some (0, { Min := ⟨-5, -5⟩, Max := ⟨15, 15⟩ }) :=
  ⟨rfl, (handleDrawing_onRedraw_moves_Min_only (Sample.foundation ⟨10, 10⟩ [])
    { Min := ⟨5, 5⟩, Max := ⟨15, 15⟩ } 0 rfl).trans (by decide)⟩

/-! ## Theorems: event dispatch -/

/-- A put into the queue `q` extends what `q` delivers by the value put. -/
theorem World.inbound_put_same {α : Type} (puts : List (Nat × Event α)) (q : Nat)
    (e : Event α) :
    World.inbound { puts := puts ++ [(q, e)] } q = World.inbound { puts := puts } q ++ [e] := by
  simp [World.inbound, List.filter_append]

/-- A put into the queue `q` leaves what any other queue delivers as it was. -/
theorem World.inbound_put_other {α : Type} (puts : List (Nat × Event α)) (q k : Nat)
    (e : Event α) (hk : k ≠ q) :
    World.inbound { puts := puts ++ [(q, e)] } k = World.inbound { puts := puts } k := by
  have hqk : ¬ q = k := fun h => hk h.symm
  simp [World.inbound, List.filter_append, hqk]

/-- C3: when `BlockForCoord` selects the child `b` for the location of a mouse-down
or mouse-up event, `handleEvents` puts exactly one value, into the inbound queue of
`b` and into no other queue, and that value is the event with its location moved by
`b.Min` and everything else as received. -/
theorem handleEvents_mouse_forwarded {α : Type} [Add α] [Sub α]
    (contains : Bounds α → Coord α → Bool) (f : Foundation α) (w : World α)
    (loc : Coord α) (down : Wde.MouseDownEvent) (up : Wde.MouseUpEvent)
    (b : Block α) (q : Nat)
    (hb : f.BlockForCoord contains loc = some b) (hq : b.allEventsIn = some q) :
    (∃ w1 : World α,
        f.handleEvents contains (Received.MouseDownEvents ⟨down, ⟨loc⟩⟩) w = some w1 ∧
        w1.puts = w.puts ++
          [(q, Event.mouseDown ⟨down, ⟨⟨loc.X - b.Min.X, loc.Y - b.Min.Y⟩⟩⟩)] ∧
        w1.inbound q = w.inbound q ++
          [Event.mouseDown ⟨down, ⟨⟨loc.X - b.Min.X, loc.Y - b.Min.Y⟩⟩⟩] ∧
        ∀ k : Nat, k ≠ q → w1.inbound k = w.inbound k) ∧
      (∃ w1 : World α,
        f.handleEvents contains (Received.MouseUpEvents ⟨up, ⟨loc⟩⟩) w = some w1 ∧
        w1.puts = w.puts ++
          [(q, Event.mouseUp ⟨up, ⟨⟨loc.X - b.Min.X, loc.Y - b.Min.Y⟩⟩⟩)] ∧
        w1.inbound q = w.inbound q ++
          [Event.mouseUp ⟨up, ⟨⟨loc.X - b.Min.X, loc.Y - b.Min.Y⟩⟩⟩] ∧
        ∀ k : Nat, k ≠ q → w1.inbound k = w.inbound k) := by
  constructor
  · refine ⟨{ puts := w.puts ++
      [(q, Event.mouseDown ⟨down, ⟨⟨loc.X - b.Min.X, loc.Y - b.Min.Y⟩⟩⟩)] }, ?_, rfl, ?_, ?_⟩
    · simp [Foundation.handleEvents, MouseDownEvent.Loc, hb, World.send, hq]
    · exact World.inbound_put_same w.puts q _
    · intro k hk
      exact World.inbound_put_other w.puts q k _ hk
  · refine ⟨{ puts := w.puts ++
      [(q, Event.mouseUp ⟨up, ⟨⟨loc.X - b.Min.X, loc.Y - b.Min.Y⟩⟩⟩)] }, ?_, rfl, ?_, ?_⟩
    · simp [Foundation.handleEvents, MouseUpEvent.Loc, hb, World.send, hq]
    · exact World.inbound_put_same w.puts q _
    · intro k hk
      exact World.inbound_put_other w.puts q k _ hk

/-- C7: when no child's `BoundsInParent` contains the location of a mouse-down or
mouse-up event, `handleEvents` ends the iteration with every queue as it was. -/
theorem handleEvents_mouse_dropped {α : Type} [Add α] [Sub α]
    (contains : Bounds α → Coord α → Bool) (f : Foundation α) (w : World α)
    (loc : Coord α) (down : Wde.MouseDownEvent) (up : Wde.MouseUpEvent)
    (hmiss : ∀ c ∈ f.Children, contains c.BoundsInParent.1 loc = false) :
    f.handleEvents contains (Received.MouseDownEvents ⟨down, ⟨loc⟩⟩) w = some w ∧
      f.handleEvents contains (Received.MouseUpEvents ⟨up, ⟨loc⟩⟩) w = some w := by
  have hnone : f.BlockForCoord contains loc = none :=
    (BlockForCoord.loop_eq_none_iff contains loc f.Children).2 hmiss
  constructor
  · simp [Foundation.handleEvents, MouseDownEvent.Loc, hnone]
  · simp [Foundation.handleEvents, MouseUpEvent.Loc, hnone]

/-- C3 at the example of the spec: a mouse-down at `(15,25)` on a Foundation whose one
child has `Min (10,10)` and `Size (20,30)` reaches that child with location
`(5,15)`. -/
theorem handleEvents_mouse_forwarded_witness :
    (Sample.foundation ⟨0, 0⟩ [Sample.child]).BlockForCoord Bounds.Contains ⟨15, 25⟩ =
        some Sample.child ∧
      Sample.child.allEventsIn = some 13 ∧
      ∃ w1 : World Int,
        (Sample.foundation ⟨0, 0⟩ [Sample.child]).handleEvents Bounds.Contains
            (Received.MouseDownEvents ⟨⟨15, 25, 1⟩, ⟨⟨15, 25⟩⟩⟩) { puts := [] } = some w1 ∧
          w1.puts = [(13, Event.mouseDown ⟨⟨15, 25, 1⟩, ⟨⟨5, 15⟩⟩⟩)] :=
  ⟨by decide, rfl,
    match (handleEvents_mouse_forwarded Bounds.Contains (Sample.foundation ⟨0, 0⟩ [Sample.child])
      { puts := [] } ⟨15, 25⟩ ⟨15, 25, 1⟩ ⟨15, 25, 1⟩ Sample.child 13 (by decide) rfl).1 with
    | ⟨w1, h1, h2, _⟩ => ⟨w1, h1, h2.trans (by decide)⟩⟩

/-- C7 at a concrete input: a mouse event at `(45,45)`, which lies in neither child,
leaves the queues as they were. -/
theorem handleEvents_mouse_dropped_witness :
    (∀ c ∈ (Sample.foundation ⟨0, 0⟩ [Sample.child, Sample.child2]).Children,
        Bounds.Contains c.BoundsInParent.1 (⟨45, 45⟩ : Coord Int) = false) ∧
      (Sample.foundation ⟨0, 0⟩ [Sample.child, Sample.child2]).handleEvents Bounds.Contains
          (Received.MouseDownEvents ⟨⟨45, 45, 1⟩, ⟨⟨45, 45⟩⟩⟩)
          { puts := [(13, Event.other 4)] } = some { puts := [(13, Event.other 4)] } ∧
      (Sample.foundation ⟨0, 0⟩ [Sample.child, Sample.child2]).handleEvents Bounds.Contains
          (Received.MouseUpEvents ⟨⟨45, 45, 1⟩, ⟨⟨45, 45⟩⟩⟩)
          { puts := [(13, Event.other 4)] } = some { puts := [(13, Event.other 4)] } :=
  ⟨by decide,
    handleEvents_mouse_dropped Bounds.Contains
      (Sample.foundation ⟨0, 0⟩ [Sample.child, Sample.child2]) { puts := [(13, Event.other 4)] }
      ⟨45, 45⟩ ⟨45, 45, 1⟩ ⟨45, 45, 1⟩ (by decide)⟩

/-! ## Theorems: event splitting -/

/-- What `handleSplitEvents` has sent after a sequence of values: on each channel,
what it had sent before followed by the values of that channel's kind, in order. -/
theorem Block.handleSplitEvents_eq {α : Type} (evs : List (Event α)) (out : SplitOut α) :
    Block.handleSplitEvents evs out =
      { MouseDownEvents := out.MouseDownEvents ++ evs.filterMap Event.asMouseDown,
        MouseUpEvents := out.MouseUpEvents ++ evs.filterMap Event.asMouseUp,
        CloseEvents := out.CloseEvents ++ evs.filterMap Event.asClose } := by
  induction evs generalizing out with
  | nil => simp [Block.handleSplitEvents]
  | cons ev rest ih =>
    cases ev with
    | mouseDown e =>
      simp [Block.handleSplitEvents, ih, Event.asMouseDown, Event.asMouseUp, Event.asClose]
    | mouseUp e =>
      simp [Block.handleSplitEvents, ih, Event.asMouseDown, Event.asMouseUp, Event.asClose]
    | close e =>
      simp [Block.handleSplitEvents, ih, Event.asMouseDown, Event.asMouseUp, Event.asClose]
    | other tag =>
      simp [Block.handleSplitEvents, ih, Event.asMouseDown, Event.asMouseUp, Event.asClose]

/-- The number of values of the three known kinds in a sequence is the number of its
mouse-down, mouse-up and close values together. -/
theorem Event.countP_isKnown {α : Type} (evs : List (Event α)) :
    evs.countP Event.isKnown =
      (evs.filterMap Event.asMouseDown).length + (evs.filterMap Event.asMouseUp).length +
        (evs.filterMap Event.asClose).length := by
  induction evs with
  | nil => rfl
  | cons ev rest ih =>
    cases ev with
    | mouseDown e =>
      simp [List.countP_cons, ih, Event.isKnown, Event.asMouseDown, Event.asMouseUp,
        Event.asClose]
      omega
    | mouseUp e =>
      simp [List.countP_cons, ih, Event.isKnown, Event.asMouseDown, Event.asMouseUp,
        Event.asClose]
      omega
    | close e =>
      simp [List.countP_cons, ih, Event.isKnown, Event.asMouseDown, Event.asMouseUp,
        Event.asClose]
      omega
    | other tag =>
      simp [List.countP_cons, ih, Event.isKnown, Event.asMouseDown, Event.asMouseUp,
        Event.asClose]

/-- C8: for every finite sequence of values delivered on `allEventsOut`, what
`handleSplitEvents` sends on `MouseDownEvents` is the subsequence of the mouse-down
values in their order, likewise `MouseUpEvents` and `CloseEvents`; a value of another
kind is sent on none of the three channels, so the sends are as many as the values of
the three kinds. -/
theorem handleSplitEvents_subsequences {α : Type} (evs : List (Event α)) :
    Block.handleSplitEvents evs { MouseDownEvents := [], MouseUpEvents := [], CloseEvents := [] } =
        { MouseDownEvents := evs.filterMap Event.asMouseDown,
          MouseUpEvents := evs.filterMap Event.asMouseUp,
          CloseEvents := evs.filterMap Event.asClose } ∧
      (∀ (tag : Nat) (rest : List (Event α)) (out : SplitOut α),
        Block.handleSplitEvents (Event.other tag :: rest) out =
          Block.handleSplitEvents rest out) ∧
      (Block.handleSplitEvents evs ⟨[], [], []⟩).MouseDownEvents.length +
          (Block.handleSplitEvents evs ⟨[], [], []⟩).MouseUpEvents.length +
          (Block.handleSplitEvents evs ⟨[], [], []⟩).CloseEvents.length =
        evs.countP Event.isKnown := by
  refine ⟨?_, ?_, ?_⟩
  · rw [Block.handleSplitEvents_eq]
    simp
  · intro tag rest out
    rfl
  · rw [Block.handleSplitEvents_eq, Event.countP_isKnown]
    simp

/-! ## Theorems: close broadcast -/

/-- The close loop over children whose inbound endpoints are `qs` puts the close
event once per child, in the order of the children. -/
theorem handleEvents.closeLoop_puts {α : Type} (e : Wde.CloseEvent) (l : List (Block α)) :
    ∀ (qs : List Nat) (w : World α), l.map (fun c => c.allEventsIn) = qs.map some →
      handleEvents.closeLoop e l w =
        some { puts := w.puts ++ qs.map (fun q => (q, Event.close e)) } := by
  induction l with
  | nil =>
    intro qs w h
    cases qs with
    | nil => simp [handleEvents.closeLoop]
    | cons q rest => simp at h
  | cons b rest ih =>
    intro qs w h
    cases qs with
    | nil => simp at h
    | cons q qs1 =>
      simp only [List.map_cons, List.cons.injEq] at h
      obtain ⟨hq, hrest⟩ := h
      unfold handleEvents.closeLoop
      simp only [World.send, hq]
      rw [ih qs1 _ hrest]
      simp

/-- What the queue `q` delivers after the same value was put into the queues `qs`:
the value once more for each occurrence of `q`. -/
theorem World.inbound_puts_all {α : Type} (ev : Event α) (q : Nat) (qs : List Nat) :
    ∀ puts : List (Nat × Event α),
      World.inbound { puts := puts ++ qs.map (fun k => (k, ev)) } q =
        World.inbound { puts := puts } q ++ List.replicate (qs.count q) ev := by
  induction qs with
  | nil =>
    intro puts
    simp [World.inbound]
  | cons k rest ih =>
    intro puts
    have hsplit : puts ++ (k :: rest).map (fun k => (k, ev)) =
        (puts ++ [(k, ev)]) ++ rest.map (fun k => (k, ev)) := by simp
    rw [hsplit, ih]
    by_cases hk : k = q
    · subst hk
      rw [World.inbound_put_same, List.count_cons_self, List.replicate_succ]
      simp
    · rw [World.inbound_put_other puts k q ev (fun h => hk h.symm),
        List.count_cons_of_ne (fun h => hk h.symm)]

/-- The close values among `n` copies of a close event are the `n` copies. -/
theorem Event.filterMap_asClose_replicate {α : Type} (e : Wde.CloseEvent) (n : Nat) :
    (List.replicate n (Event.close e : Event α)).filterMap Event.asClose =
      List.replicate n e := by
  induction n with
  | zero => rfl
  | succ k ih => simp [List.replicate_succ, Event.asClose, ih]

/-- C6: on a close event, `handleEvents` puts one value per child into that child's
inbound queue, the value is the event as received, and the children are served in
the order of `Children`, whatever their geometry; `handleSplitEvents` of a child then
sends that event on the child's `CloseEvents` channel. -/
theorem handleEvents_close_broadcast {α : Type} [Add α] [Sub α]
    (contains : Bounds α → Coord α → Bool) (f : Foundation α) (w : World α)
    (e : Wde.CloseEvent) (qs : List Nat)
    (hlive : f.Children.map (fun c => c.allEventsIn) = qs.map some) :
    ∃ w1 : World α,
      f.handleEvents contains (Received.CloseEvents e) w = some w1 ∧
      w1.puts = w.puts ++ qs.map (fun q => (q, Event.close e)) ∧
      (∀ q : Nat, w1.inbound q = w.inbound q ++ List.replicate (qs.count q) (Event.close e)) ∧
      (∀ q : Nat,
        (Block.handleSplitEvents (w1.inbound q) ⟨[], [], []⟩).CloseEvents =
          (Block.handleSplitEvents (w.inbound q) ⟨[], [], []⟩).CloseEvents ++
            List.replicate (qs.count q) e) ∧
      (qs.Nodup → ∀ q ∈ qs,
        w1.inbound q = w.inbound q ++ [Event.close e] ∧
        (Block.handleSplitEvents (w1.inbound q) ⟨[], [], []⟩).CloseEvents =
          (Block.handleSplitEvents (w.inbound q) ⟨[], [], []⟩).CloseEvents ++ [e]) := by
  have hin : ∀ q : Nat,
      World.inbound { puts := w.puts ++ qs.map (fun q => (q, Event.close e)) } q =
        w.inbound q ++ List.replicate (qs.count q) (Event.close e) :=
    fun q => World.inbound_puts_all (Event.close e) q qs w.puts
  have hsplit : ∀ q : Nat,
      (Block.handleSplitEvents
          (World.inbound { puts := w.puts ++ qs.map (fun q => (q, Event.close e)) } q)
          ⟨[], [], []⟩).CloseEvents =
        (Block.handleSplitEvents (w.inbound q) ⟨[], [], []⟩).CloseEvents ++
          List.replicate (qs.count q) e := by
    intro q
    rw [hin q, Block.handleSplitEvents_eq, Block.handleSplitEvents_eq]
    simp [List.filterMap_append, Event.filterMap_asClose_replicate]
  refine ⟨{ puts := w.puts ++ qs.map (fun q => (q, Event.close e)) }, ?_, rfl, hin, hsplit, ?_⟩
  · exact handleEvents.closeLoop_puts e f.Children qs w hlive
  · intro hnd q hq
    have hone : qs.count q = 1 := List.count_eq_one_of_mem hnd hq
    have h1 := hin q
    have h2 := hsplit q
    rw [hone] at h1 h2
    exact ⟨h1, h2⟩

/-- C6 at a concrete input: a close event on a Foundation with two children reaches
the inbound queue of the first and then of the second, and comes out of each on its
`CloseEvents` channel. -/
theorem handleEvents_close_broadcast_witness :
    (Sample.foundation ⟨0, 0⟩ [Sample.child, Sample.child2]).Children.map
        (fun c => c.allEventsIn) = [13, 23].map some ∧
      ∃ w1 : World Int,
        (Sample.foundation ⟨0, 0⟩ [Sample.child, Sample.child2]).handleEvents Bounds.Contains
            (Received.CloseEvents ⟨5⟩) { puts := [] } = some w1 ∧
          w1.puts = [(13, Event.close ⟨5⟩), (23, Event.close ⟨5⟩)] ∧
          (Block.handleSplitEvents (w1.inbound 13) ⟨[], [], []⟩).CloseEvents = [⟨5⟩] ∧
          (Block.handleSplitEvents (w1.inbound 23) ⟨[], [], []⟩).CloseEvents = [⟨5⟩] :=
  ⟨rfl,
    match handleEvents_close_broadcast Bounds.Contains
      (Sample.foundation ⟨0, 0⟩ [Sample.child, Sample.child2]) { puts := [] } ⟨5⟩ [13, 23] rfl with
    | ⟨w1, h1, h2, _, h4, _⟩ =>
      ⟨w1, h1, h2.trans (by decide), (h4 13).trans (by decide), (h4 23).trans (by decide)⟩⟩

/-! ## Theorems: window construction -/

/-- C9: when `WindowGenerator` returns an error, `NewWindow` returns that error and
sets up nothing: every channel field of the returned value is nil, `Size` is the zero
value, no channel is made and no goroutine is started; when `WindowGenerator` returns
no error, `NewWindow` returns a nil error and `Size = (float(width), float(height))`,
with the three goroutines started after the one of `MakeChannels`. -/
theorem NewWindow_error_or_size {α : Type} [Zero α] [IntCast α]
    (WindowGenerator : Option Nat → Int → Int → Option Nat × Option String)
    (parent : Option Nat) (width height : Int) (rt : Runtime) :
    (∀ err : String, (WindowGenerator parent width height).2 = some err →
        (NewWindow (α := α) WindowGenerator parent width height rt).1.2 = some err ∧
        (NewWindow (α := α) WindowGenerator parent width height rt).1.1.CloseEvents = none ∧
        (NewWindow (α := α) WindowGenerator parent width height rt).1.1.MouseDownEvents = none ∧
        (NewWindow (α := α) WindowGenerator parent width height rt).1.1.MouseUpEvents = none ∧
        (NewWindow (α := α) WindowGenerator parent width height rt).1.1.allEventsIn = none ∧
        (NewWindow (α := α) WindowGenerator parent width height rt).1.1.allEventsOut = none ∧
        (NewWindow (α := α) WindowGenerator parent width height rt).1.1.Draw = none ∧
        (NewWindow (α := α) WindowGenerator parent width height rt).1.1.Redraw = none ∧
        (NewWindow (α := α) WindowGenerator parent width height rt).1.1.Done = none ∧
        (NewWindow (α := α) WindowGenerator parent width height rt).1.1.Size = ⟨0, 0⟩ ∧
        (NewWindow (α := α) WindowGenerator parent width height rt).2 = rt) ∧
      ((WindowGenerator parent width height).2 = none →
        (NewWindow (α := α) WindowGenerator parent width height rt).1.2 = none ∧
        (NewWindow (α := α) WindowGenerator parent width height rt).1.1.Size =
          ⟨(width : α), (height : α)⟩ ∧
        (NewWindow (α := α) WindowGenerator parent width height rt).2.started =
          rt.started ++ [Goroutine.handleSplitEvents, Goroutine.handleWindowEvents,
            Goroutine.handleWindowDrawing, Goroutine.handleEvents]) := by
  cases hgen : WindowGenerator parent width height with
  | mk window err =>
    constructor
    · intro e he
      have herr : err = some e := he
      subst herr
      simp [NewWindow, hgen, WindowFoundation.new]
    · intro he
      have herr : err = none := he
      subst herr
      simp [NewWindow, hgen, WindowFoundation.new, Block.MakeChannels, QueuePipe, Runtime.make,
        Runtime.go]

/-- C9 at concrete inputs: a failing backend gives the error back with nothing set up,
a working one gives a window of the size asked for. -/
theorem NewWindow_error_or_size_witness :
    (Sample.failing none 640 480).2 = some "no display" ∧
      (NewWindow (α := Int) Sample.failing none 640 480 ⟨0, []⟩).1.2 = some "no display" ∧
      (NewWindow (α := Int) Sample.failing none 640 480 ⟨0, []⟩).2 = ⟨0, []⟩ ∧
      (Sample.working none 640 480).2 = none ∧
      (NewWindow (α := Int) Sample.working none 640 480 ⟨0, []⟩).1.2 = none ∧
      (NewWindow (α := Int) Sample.working none 640 480 ⟨0, []⟩).1.1.Size = ⟨640, 480⟩ :=
  ⟨rfl,
    ((NewWindow_error_or_size (α := Int) Sample.failing none 640 480 ⟨0, []⟩).1
      "no display" rfl).1,
    ((NewWindow_error_or_size (α := Int) Sample.failing none 640 480 ⟨0, []⟩).1
      "no display" rfl).2.2.2.2.2.2.2.2.2.2,
    rfl,
    ((NewWindow_error_or_size (α := Int) Sample.working none 640 480 ⟨0, []⟩).2 rfl).1,
    ((NewWindow_error_or_size (α := Int) Sample.working none 640 480 ⟨0, []⟩).2 rfl).2.1⟩

/-! ## Theorems: draw composition -/

/-- C2, as the code has it: a Foundation with at least one child, serving a draw
request, saves, translates, sends the request it received (not the fresh one) to the
first child, which paints and signals on the completion channel of the request it
received; the Foundation then waits forever on the fresh channel.  No `Restore` is
called, no further child is drawn, and the only completion signal on the original
channel comes from the first child. -/
theorem handleDrawing_onDraw_blocks_at_first_child {α T : Type} [Zero α]
    (translate : T → α → α → T) (run : Nat → GraphicContext T → GraphicContext T)
    (f : Foundation α) (dr : DrawRequest α) (st : DrawState α T)
    (child : Block α) (rest : List (Block α)) (ch : Nat)
    (hc : f.Children = child :: rest) (hd : child.Draw = some ch)
    (hfresh : st.nextChan ≠ dr.Done ∧ st.nextChan ∉ st.offered) :
    ∃ st1 : DrawState α T,
      Foundation.handleDrawing.onDraw translate run f dr st = Outcome.blocked st1 ∧
      st1.trace = st.trace ++ f.paintEvents ++
        [DrawEvent.Save, DrawEvent.Translate child.Min.X child.Min.Y,
          DrawEvent.sendDraw ch dr.Done] ++
        child.paintEvents ++ [DrawEvent.sendDone dr.Done] ∧
      st1.offered = dr.Done :: st.offered := by
  obtain ⟨h1, h2⟩ := hfresh
  cases hf : f.Paint with
  | none =>
    cases hp : child.Paint with
    | none =>
      simp [Foundation.handleDrawing.onDraw, hc, handleDrawing.childLoop, hd, hf, hp,
        Block.draw, Block.doPaint, DrawState.recvDone, DrawState.sendDone, DrawState.makeChan,
        DrawState.call, Block.paintEvents, h1, h2]
    | some k =>
      simp [Foundation.handleDrawing.onDraw, hc, handleDrawing.childLoop, hd, hf, hp,
        Block.draw, Block.doPaint, DrawState.recvDone, DrawState.sendDone, DrawState.makeChan,
        DrawState.call, Block.paintEvents, h1, h2]
  | some h =>
    cases hp : child.Paint with
    | none =>
      simp [Foundation.handleDrawing.onDraw, hc, handleDrawing.childLoop, hd, hf, hp,
        Block.draw, Block.doPaint, DrawState.recvDone, DrawState.sendDone, DrawState.makeChan,
        DrawState.call, Block.paintEvents, h1, h2]
    | some k =>
      simp [Foundation.handleDrawing.onDraw, hc, handleDrawing.childLoop, hd, hf, hp,
        Block.draw, Block.doPaint, DrawState.recvDone, DrawState.sendDone, DrawState.makeChan,
        DrawState.call, Block.paintEvents, h1, h2]

/-- C2 at a concrete input: a Foundation with the two sample children, serving the
request whose completion channel is 30, ends blocked after the first child's paint;
the second child is never reached and `Restore` is never called. -/
theorem handleDrawing_onDraw_blocks_at_first_child_witness :
    (Sample.foundation ⟨0, 0⟩ [Sample.child, Sample.child2]).Children =
        Sample.child :: [Sample.child2] ∧
      Sample.child.Draw = some 15 ∧
      (Sample.start.nextChan ≠ 30 ∧ Sample.start.nextChan ∉ Sample.start.offered) ∧
      ∃ st1 : DrawState Int (Coord Int),
        Foundation.handleDrawing.onDraw Sample.translate Sample.quietHooks
            (Sample.foundation ⟨0, 0⟩ [Sample.child, Sample.child2])
            { Dirty := ⟨⟨0, 0⟩, ⟨100, 100⟩⟩, Done := 30 } Sample.start =
          Outcome.blocked st1 ∧
        st1.trace = [DrawEvent.Paint 3, DrawEvent.Save, DrawEvent.Translate 10 10,
          DrawEvent.sendDraw 15 30, DrawEvent.Paint 7, DrawEvent.sendDone 30] :=
  ⟨rfl, rfl, by decide,
    match handleDrawing_onDraw_blocks_at_first_child Sample.translate Sample.quietHooks
      (Sample.foundation ⟨0, 0⟩ [Sample.child, Sample.child2])
      { Dirty := ⟨⟨0, 0⟩, ⟨100, 100⟩⟩, Done := 30 } Sample.start
      Sample.child [Sample.child2] 15 rfl rfl (by decide) with
    | ⟨st1, h1, h2, _⟩ => ⟨st1, h1, h2.trans (by decide)⟩⟩

/-- What `doPaint` does to the state of a traversal: the hook acts on the graphics
context and its call is observed; the channels stay as they were. -/
theorem Block.doPaint_eq {α T : Type} (run : Nat → GraphicContext T → GraphicContext T)
    (b : Block α) (st : DrawState α T) :
    b.doPaint run st =
      { gc := b.painted run st.gc, trace := st.trace ++ b.paintEvents,
        offered := st.offered, nextChan := st.nextChan } := by
  cases hp : b.Paint with
  | none => simp [Block.doPaint, Block.painted, Block.paintEvents, hp]
  | some h => simp [Block.doPaint, Block.painted, Block.paintEvents, hp, DrawState.call]

/-- One turn of the child loop of `handleWindowDrawing` for a child with a draw
channel: the loop goes on with the next child. -/
theorem handleWindowDrawing.childLoop_cons {α T : Type} [Zero α]
    (translate : T → α → α → T) (run : Nat → GraphicContext T → GraphicContext T)
    (child : Block α) (rest : List (Block α)) (ch : Nat) (st : DrawState α T)
    (hd : child.Draw = some ch) :
    handleWindowDrawing.childLoop translate run (child :: rest) st =
      handleWindowDrawing.childLoop translate run rest
        { gc := (child.painted run
            ((st.gc.Save).Translate translate child.Min.X child.Min.Y)).Restore,
          trace := st.trace ++ Spec.childEvents child ch st.nextChan,
          offered := st.offered,
          nextChan := st.nextChan + 1 } := by
  rw [handleWindowDrawing.childLoop]
  simp [hd, Block.draw, Block.doPaint_eq, DrawState.call, DrawState.makeChan,
    DrawState.sendDone, DrawState.recvDone, Spec.childEvents]

/-- A `Restore` brings back the context that was saved, when nothing was pushed or
popped in between. -/
theorem GraphicContext.Restore_of_saved {T : Type} (gc g2 : GraphicContext T)
    (h : g2.saved = gc.Tr :: gc.saved) : g2.Restore = gc := by
  cases gc with
  | mk tr saved =>
    unfold GraphicContext.Restore
    rw [h]

/-- The events of one child hold one `Save` and one `Restore`. -/
theorem Spec.childEvents_counts {α : Type} (child : Block α) (ch done : Nat) :
    (Spec.childEvents child ch done).countP DrawEvent.isSave = 1 ∧
      (Spec.childEvents child ch done).countP DrawEvent.isRestore = 1 := by
  cases hp : child.Paint with
  | none =>
    simp [Spec.childEvents, Block.paintEvents, hp, List.countP_cons, DrawEvent.isSave,
      DrawEvent.isRestore]
  | some h =>
    simp [Spec.childEvents, Block.paintEvents, hp, List.countP_cons, DrawEvent.isSave,
      DrawEvent.isRestore]

/-- The events of the children hold as many `Save` calls and as many `Restore` calls
as there are children. -/
theorem Spec.childrenEvents_counts {α : Type} (l : List (Block α)) :
    ∀ (chs : List Nat) (done : Nat), chs.length = l.length →
      (Spec.childrenEvents l chs done).countP DrawEvent.isSave = l.length ∧
        (Spec.childrenEvents l chs done).countP DrawEvent.isRestore = l.length := by
  induction l with
  | nil =>
    intro chs done _
    cases chs <;> simp [Spec.childrenEvents]
  | cons child rest ih =>
    intro chs done hlen
    cases chs with
    | nil => simp at hlen
    | cons ch chs1 =>
      have hlen1 : chs1.length = rest.length := by simpa using hlen
      obtain ⟨h1, h2⟩ := ih chs1 (done + 1) hlen1
      obtain ⟨k1, k2⟩ := Spec.childEvents_counts child ch done
      simp only [Spec.childrenEvents, List.countP_append, h1, h2, k1, k2, List.length_cons]
      omega

/-- The child loop of `handleWindowDrawing` over children that all have a draw
channel runs to its end; it produces the events of the spec, leaves no sender waiting,
and, when no child's hook changes the saved stack, hands the graphics context back as
it got it. -/
theorem handleWindowDrawing.childLoop_spec {α T : Type} [Zero α]
    (translate : T → α → α → T) (run : Nat → GraphicContext T → GraphicContext T)
    (l : List (Block α)) :
    ∀ (chs : List Nat) (st : DrawState α T), l.map (fun c => c.Draw) = chs.map some →
      ∃ st1 : DrawState α T,
        handleWindowDrawing.childLoop translate run l st = Outcome.returned st1 ∧
        st1.trace = st.trace ++ Spec.childrenEvents l chs st.nextChan ∧
        st1.offered = st.offered ∧
        st1.nextChan = st.nextChan + l.length ∧
        ((∀ c ∈ l, ∀ g : GraphicContext T, (c.painted run g).saved = g.saved) →
          st1.gc = st.gc) := by
  induction l with
  | nil =>
    intro chs st _
    refine ⟨st, by simp [handleWindowDrawing.childLoop], ?_, rfl, rfl, fun _ => rfl⟩
    cases chs <;> simp [Spec.childrenEvents]
  | cons child rest ih =>
    intro chs st h
    cases chs with
    | nil => simp at h
    | cons ch chs1 =>
      simp only [List.map_cons, List.cons.injEq] at h
      obtain ⟨hd, hrest⟩ := h
      rw [handleWindowDrawing.childLoop_cons translate run child rest ch st hd]
      obtain ⟨st1, hrun, htrace, hoff, hnext, hgc⟩ := ih chs1 _ hrest
      refine ⟨st1, hrun, ?_, hoff, ?_, ?_⟩
      · rw [htrace]
        simp [Spec.childrenEvents]
      · rw [hnext]
        simp only [List.length_cons]
        omega
      · intro hooks
        rw [hgc (fun c hc => hooks c (List.mem_cons_of_mem child hc))]
        apply GraphicContext.Restore_of_saved
        rw [hooks child (List.mem_cons_self child rest)]
        rfl

/-- C10, amended: serving one redraw request, `handleWindowDrawing` performs on a
fresh graphics context `Clear`, `BeginPath`, the Foundation's own paint hook (when
not nil), then for each child in sequence order `Save`, `Translate` by the child's
`Min`, the child's paint through a fresh request whose completion channel is the one
waited on, `Restore`; `FlushImage` comes once, last.  The `Save` and `Restore` calls
are as many as the children.  When no child's hook changes the saved stack, the
context at the flush is the one the Foundation's own hook left; when moreover that
hook keeps the transform, the transform at the flush is the one after `BeginPath`. -/
theorem handleWindowDrawing_sequence {α T : Type} [Zero α]
    (translate : T → α → α → T) (run : Nat → GraphicContext T → GraphicContext T)
    (identity : T) (wf : WindowFoundation α) (dirtyBounds : Bounds α)
    (st : DrawState α T) (chs : List Nat)
    (hlive : wf.Children.map (fun c => c.Draw) = chs.map some) :
    ∃ st1 : DrawState α T,
      WindowFoundation.handleWindowDrawing translate run identity wf dirtyBounds st =
        Outcome.returned st1 ∧
      st1.trace = st.trace ++ [DrawEvent.Clear, DrawEvent.BeginPath] ++ wf.paintEvents ++
        Spec.childrenEvents wf.Children chs st.nextChan ++ [DrawEvent.FlushImage] ∧
      (Spec.childrenEvents wf.Children chs st.nextChan).countP DrawEvent.isSave =
        wf.Children.length ∧
      (Spec.childrenEvents wf.Children chs st.nextChan).countP DrawEvent.isRestore =
        wf.Children.length ∧
      ((∀ c ∈ wf.Children, ∀ g : GraphicContext T, (c.painted run g).saved = g.saved) →
        st1.gc = wf.toBlock.painted run
          (GraphicContext.BeginPath (GraphicContext.Clear (NewGraphicContext identity)))) ∧
      ((∀ c ∈ wf.Children, ∀ g : GraphicContext T, (c.painted run g).saved = g.saved) →
        (∀ g : GraphicContext T, (wf.toBlock.painted run g).Tr = g.Tr) →
        st1.gc.Tr =
          (GraphicContext.BeginPath (GraphicContext.Clear (NewGraphicContext identity))).Tr) := by
  have hlen : chs.length = wf.Children.length := by
    have := congrArg List.length hlive
    simpa using this.symm
  obtain ⟨k1, k2⟩ := Spec.childrenEvents_counts wf.Children chs st.nextChan hlen
  obtain ⟨st1, hrun, htrace, _, _, hgc⟩ :=
    handleWindowDrawing.childLoop_spec translate run wf.Children chs
      (wf.toBlock.doPaint run
        ((({ st with gc := NewGraphicContext identity } : DrawState α T).call
          DrawEvent.Clear GraphicContext.Clear).call DrawEvent.BeginPath
          GraphicContext.BeginPath)) hlive
  refine ⟨{ st1 with trace := st1.trace ++ [DrawEvent.FlushImage] }, ?_, ?_, k1, k2, ?_, ?_⟩
  · simp only [WindowFoundation.handleWindowDrawing, hrun]
  · simp only [htrace, Block.doPaint_eq, DrawState.call]
    simp
  · intro hooks
    simp only [hgc hooks, Block.doPaint_eq, DrawState.call]
  · intro hooks hown
    simp only [hgc hooks, Block.doPaint_eq, DrawState.call, hown]

/-- C10 at a concrete input: a window with the two sample children and hooks that
leave the context alone. -/
theorem handleWindowDrawing_sequence_witness :
    (Sample.window [Sample.child, Sample.child2]).Children.map (fun c => c.Draw) =
        [15, 25].map some ∧
      (∀ c ∈ (Sample.window [Sample.child, Sample.child2]).Children,
        ∀ g : GraphicContext (Coord Int), (c.painted Sample.quietHooks g).saved = g.saved) ∧
      (∀ g : GraphicContext (Coord Int),
        ((Sample.window [Sample.child, Sample.child2]).toBlock.painted
          Sample.quietHooks g).Tr = g.Tr) ∧
      ∃ st1 : DrawState Int (Coord Int),
        WindowFoundation.handleWindowDrawing Sample.translate Sample.quietHooks ⟨0, 0⟩
            (Sample.window [Sample.child, Sample.child2]) ⟨⟨0, 0⟩, ⟨100, 100⟩⟩ Sample.start =
          Outcome.returned st1 ∧
        st1.trace =
          [DrawEvent.Clear, DrawEvent.BeginPath, DrawEvent.Paint 3,
            DrawEvent.Save, DrawEvent.Translate 10 10, DrawEvent.sendDraw 15 40,
            DrawEvent.Paint 7, DrawEvent.sendDone 40, DrawEvent.recvDone 40, DrawEvent.Restore,
            DrawEvent.Save, DrawEvent.Translate 50 50, DrawEvent.sendDraw 25 41,
            DrawEvent.sendDone 41, DrawEvent.recvDone 41, DrawEvent.Restore,
            DrawEvent.FlushImage] ∧
        st1.gc.Tr = ⟨0, 0⟩ :=
  have hkids : ∀ c ∈ (Sample.window [Sample.child, Sample.child2]).Children,
      ∀ g : GraphicContext (Coord Int), (c.painted Sample.quietHooks g).saved = g.saved := by
    intro c _ g
    cases hp : c.Paint <;> simp [Block.painted, hp, Sample.quietHooks]
  have hown : ∀ g : GraphicContext (Coord Int),
      ((Sample.window [Sample.child, Sample.child2]).toBlock.painted
        Sample.quietHooks g).Tr = g.Tr := fun _ => rfl
  ⟨rfl, hkids, hown,
    match handleWindowDrawing_sequence Sample.translate Sample.quietHooks ⟨0, 0⟩
      (Sample.window [Sample.child, Sample.child2]) ⟨⟨0, 0⟩, ⟨100, 100⟩⟩ Sample.start
      [15, 25] rfl with
    | ⟨st1, h1, h2, _, _, _, h6⟩ => ⟨st1, h1, h2.trans (by decide), (h6 hkids hown).trans rfl⟩⟩

/-- C10 as stated fails: with a Foundation hook that calls `gc.Translate(1, 0)`, the
handler performs the sequence of the claim, and the transform at the flush is `(1,0)`
where the transform after `BeginPath` was `(0,0)`. -/
theorem handleWindowDrawing_transform_not_kept :
    ∃ st1 : DrawState Int (Coord Int),
      WindowFoundation.handleWindowDrawing Sample.translate Sample.shiftingHooks ⟨0, 0⟩
          (Sample.window [Sample.child]) ⟨⟨0, 0⟩, ⟨100, 100⟩⟩ Sample.start =
        Outcome.returned st1 ∧
      st1.trace =
        [DrawEvent.Clear, DrawEvent.BeginPath, DrawEvent.Paint 3,
          DrawEvent.Save, DrawEvent.Translate 10 10, DrawEvent.sendDraw 15 40,
          DrawEvent.Paint 7, DrawEvent.sendDone 40, DrawEvent.recvDone 40, DrawEvent.Restore,
          DrawEvent.FlushImage] ∧
      st1.gc.Tr = ⟨1, 0⟩ ∧
      st1.gc.Tr ≠
        (GraphicContext.BeginPath (GraphicContext.Clear
          (NewGraphicContext (⟨0, 0⟩ : Coord Int)))).Tr :=
  ⟨{ gc := { Tr := ⟨1, 0⟩, saved := [] },
     trace := [DrawEvent.Clear, DrawEvent.BeginPath, DrawEvent.Paint 3,
       DrawEvent.Save, DrawEvent.Translate 10 10, DrawEvent.sendDraw 15 40,
       DrawEvent.Paint 7, DrawEvent.sendDone 40, DrawEvent.recvDone 40, DrawEvent.Restore,
       DrawEvent.FlushImage],
     offered := [], nextChan := 41 },
    by decide, rfl, rfl, by decide⟩

end Uik
